import Mathlib

/-!
Shallow embedding of the reversible library (src/reversible) in Lean 4.

Modelling conventions:

* Python exception payloads are strings (`Err`); Python values flowing
  between actions and the composing generator are `Val := Option Nat`
  (`none` models Python None, `some n` a concrete result).
* A fallible Python call is an `Except Err` value.
* Actions are instrumented: every `forwards()` / `backwards()` call on a
  leaf sub-action emits an `Event`, so claims about call counts and call
  order are statements about the emitted trace.
* A stateful object is modelled by explicit state passing: a method takes
  the object state and returns (result, new state, trace).
-/

deriving instance DecidableEq for Except

namespace Reversible

abbrev Err := String

abbrev Val := Option Nat

/-- A leaf action: an object with `forwards()` and `backwards()` whose
behaviors are fixed outcomes (like the mock actions in the repository's
tests). `tag` distinguishes distinct objects with equal behavior. -/
structure LeafAction where
  tag : Nat
  fwd : Except Err Val
  bwd : Except Err Unit
deriving DecidableEq

/-- One observable method call on a leaf sub-action. -/
inductive Event where
  | fwdCall (a : LeafAction)
  | bwdCall (a : LeafAction)
deriving DecidableEq

/-- Projection selecting forwards-call events. -/
def Event.fwdAction : Event → Option LeafAction
  | .fwdCall a => some a
  | .bwdCall _ => none

/-- Projection selecting backwards-call events. -/
def Event.bwdAction : Event → Option LeafAction
  | .bwdCall a => some a
  | .fwdCall _ => none

/-- An action in the sense of `reversible.core`: any object with
`forwards()` and `backwards()` methods. The object's state has type `σ`;
each method returns its result, the new object state, and the trace of
leaf sub-action calls it performed. -/
structure Action (σ : Type) where
  forwards : σ → Except Err Val × σ × List Event
  backwards : σ → Except Err Unit × σ × List Event

/-- `reversible.core.execute` (src/reversible/core.py lines 51-61):
try to return `action.forwards()`; on failure call `action.backwards()`;
if rollback succeeds re-raise the original error, otherwise raise the
rollback error. (Logging is observationally irrelevant and omitted.) -/
def execute {σ : Type} (A : Action σ) (s : σ) : Except Err Val × σ × List Event :=
  match A.forwards s with
  | (.ok v, s₁, t₁) => (.ok v, s₁, t₁)
  | (.error e, s₁, t₁) =>
    match A.backwards s₁ with
    | (.ok _, s₂, t₂) => (.error e, s₂, t₁ ++ t₂)
    | (.error e₂, s₂, t₂) => (.error e₂, s₂, t₁ ++ t₂)

/-- A `LeafAction` viewed as an `Action`: calling a method emits the
corresponding event and produces the fixed outcome. -/
def LeafAction.toAction (a : LeafAction) : Action Unit where
  forwards := fun _ => (a.fwd, (), [Event.fwdCall a])
  backwards := fun _ => (a.bwd, (), [Event.bwdCall a])

/-- The composing procedure: the suspended generator passed to
`reversible.gen`. `yield a k` is a generator suspended at a `yield a`
statement; resuming it with `send(v)` is `k (.ok v)` and resuming it with
`throw(e)` is `k (.error e)` (the continuation decides whether the thrown
failure is caught). `done v` is a generator that terminates delivering
value `v`: via `StopIteration` (plain end: `v = none`) or by raising
`reversible.Return v` - `_GeneratorAction.forwards` treats both alike.
`fail e` is a generator that terminates by raising error `e`. -/
inductive Proc where
  | yield (a : LeafAction) (k : Except Err Val → Proc)
  | done (v : Val)
  | fail (e : Err)

/-- The `__slots__` of `_GeneratorAction` (src/reversible/generator.py
lines 36-42): the suspended generator and the `executed` deque. The deque
is modelled with its most recently appended element at the head of the
list (Python appends and pops at the right end; list head = deque right
end). -/
structure GenState where
  generator : Proc
  executed : List LeafAction

/-- Prepend one event to the trace component of a forwards outcome. -/
def prependEvent (ev : Event) (r : Except Err Val × List LeafAction × List Event) :
    Except Err Val × List LeafAction × List Event :=
  (r.1, r.2.1, ev :: r.2.2)

/-- `_GeneratorAction.forwards` (src/reversible/generator.py lines 44-57)
as a function of the current generator and the current `executed` stack:
obtain an action from the generator; append it to `executed` (before its
`forwards` is called); call its `forwards`; on success resume the
generator with the result (`send`), on failure resume it with the error
(`throw`); when the generator terminates with `StopIteration`/`Return`
deliver its value, and when it terminates with any other error propagate
that error. Returns (result, final executed stack, trace). -/
def genActionForwards : Proc → List LeafAction → Except Err Val × List LeafAction × List Event
  | .done v, st => (.ok v, st, [])
  | .fail e, st => (.error e, st, [])
  | .yield a k, st =>
    match a.fwd with
    | .ok v => prependEvent (.fwdCall a) (genActionForwards (k (.ok v)) (a :: st))
    | .error e => prependEvent (.fwdCall a) (genActionForwards (k (.error e)) (a :: st))

/-- `_GeneratorAction.backwards` (src/reversible/generator.py lines
59-61): while `executed` is non-empty, pop the most recent entry and call
its `backwards()`; a failing `backwards` propagates (the popped entry is
already removed). Returns (result, remaining stack, trace). -/
def genActionBackwards : List LeafAction → Except Err Unit × List LeafAction × List Event
  | [] => (.ok (), [], [])
  | a :: st =>
    match a.bwd with
    | .ok _ =>
      let r := genActionBackwards st
      (r.1, r.2.1, Event.bwdCall a :: r.2.2)
    | .error e => (.error e, st, [Event.bwdCall a])

/-- `_GeneratorAction` as an `Action` over `GenState`. The generator
handle is retained in the state after `forwards` but never driven again:
composite actions are single-use. -/
def generatorAction : Action GenState where
  forwards := fun s =>
    let r := genActionForwards s.generator s.executed
    (r.1, ⟨s.generator, r.2.1⟩, r.2.2)
  backwards := fun s =>
    let r := genActionBackwards s.executed
    (r.1, ⟨s.generator, r.2.1⟩, r.2.2)

/-- What calling the function decorated by `reversible.gen` produced
(src/reversible/generator.py lines 133-153): the function raised
`Return v` before producing a generator, returned a plain non-generator
value, or returned a generator. -/
inductive GenInput where
  | raisesReturn (v : Val)
  | value (v : Val)
  | generator (p : Proc)

/-- The action object returned by the function that `reversible.gen`
builds: a `SimpleAction (fun ctx => ctx.value) (fun _ => none) (Return v)`
for the early-`Return` branch, a
`SimpleAction (fun _ => value) (fun _ => none) none` for the plain-value
branch, or a `_GeneratorAction`. -/
inductive CompositeState where
  | returnSimple (v : Val)
  | valueSimple (v : Val)
  | genAction (s : GenState)

/-- Method table for `CompositeState`: the two `SimpleAction` shapes call
their stored lambdas (forwards returns the stored value, backwards does
nothing, no sub-action is involved); the generator shape behaves as
`generatorAction`. -/
def compositeAction : Action CompositeState where
  forwards := fun s =>
    match s with
    | .returnSimple v => (.ok v, .returnSimple v, [])
    | .valueSimple v => (.ok v, .valueSimple v, [])
    | .genAction gs =>
      let r := genActionForwards gs.generator gs.executed
      (r.1, .genAction ⟨gs.generator, r.2.1⟩, r.2.2)
  backwards := fun s =>
    match s with
    | .returnSimple v => (.ok (), .returnSimple v, [])
    | .valueSimple v => (.ok (), .valueSimple v, [])
    | .genAction gs =>
      let r := genActionBackwards gs.executed
      (r.1, .genAction ⟨gs.generator, r.2.1⟩, r.2.2)

/-- `reversible.gen`'s `new_function` (src/reversible/generator.py lines
133-153): dispatch on what the decorated function call produced. A fresh
`_GeneratorAction` starts with an empty `executed` deque. -/
def gen : GenInput → CompositeState
  | .raisesReturn v => .returnSimple v
  | .value v => .valueSimple v
  | .generator p => .genAction ⟨p, []⟩

/-- A straight-line composing procedure that yields the given actions in
order, forwarding each result and catching nothing: an injected failure
terminates it with that error (the shape used by the spec's "composite
built from N sub-actions yielded in order" scenarios). -/
def seqProc : List LeafAction → Proc
  | [] => .done none
  | a :: rest =>
    .yield a fun r =>
      match r with
      | .ok _ => seqProc rest
      | .error e => .fail e

/-- `_TornadoAction` (src/reversible/tornado/core.py lines 54-76 and
src/reversible/tornado.py lines 50-72) restricted to synchronous inner
actions: when the inner call returns an immediate value or raises
immediately, `_maybe_async` passes that straight through unchanged.
The future/greenlet suspension path (concurrency, scheduler switching) is
outside this shallow embedding, so on this model the bridge preserves the
wrapped action's observable behavior. -/
def tornadoWrap (a : LeafAction) : LeafAction := a

/-- `_map_generator f generator` (src/reversible/tornado/generator.py
lines 34-51): yields `f item` for each item of the inner generator and
forwards sent results and thrown exceptions back to it; terminations of
the inner generator (`StopIteration`, `Return`, other errors) propagate
through unchanged. -/
def mapGenerator (f : LeafAction → LeafAction) : Proc → Proc
  | .done v => .done v
  | .fail e => .fail e
  | .yield a k => .yield (f a) fun r => mapGenerator f (k r)

/-- The generator comprehension `f(action) for action in value` used by
`gen` in src/reversible/tornado.py (line 122). A comprehension is a
one-directional loop over `next(value)`: a value sent to it is discarded
and the inner generator is resumed with `None`, and an exception thrown
into it is not delivered to the inner generator at all - it propagates
out of the comprehension immediately. Inner terminations propagate
(under the targeted Python 2 semantics `StopIteration` carries no value,
so `done` pass-through is exact: a non-`none` value only arises from a
`Return` exception, which the comprehension does not intercept). -/
def genComprehension (f : LeafAction → LeafAction) : Proc → Proc
  | .done v => .done v
  | .fail e => .fail e
  | .yield a k =>
    .yield (f a) fun r =>
      match r with
      | .ok _ => genComprehension f (k (.ok none))
      | .error e => .fail e

/-- The composite produced by `gen` of src/reversible/tornado/generator.py
for a generator-returning function: a `_GeneratorAction` over the
`_map_generator`-wrapped procedure (the surrounding
`_TornadoGeneratorAction.forwards` merely re-catches `Return`, which the
model already folds into `done`). -/
def tornadoNewGen (p : Proc) : CompositeState :=
  .genAction ⟨mapGenerator tornadoWrap p, []⟩

/-- The composite produced by `gen` of src/reversible/tornado.py (lines
106-131) for a generator-returning function: a `_GeneratorAction` over
the comprehension-wrapped procedure. -/
def tornadoOldGen (p : Proc) : CompositeState :=
  .genAction ⟨genComprehension tornadoWrap p, []⟩

/-- Scenario action A of the spec's concrete scenario: forwards returns
1, backwards succeeds. -/
def actA : LeafAction := ⟨1, .ok (some 1), .ok ()⟩

/-- Scenario action B: forwards returns 2, backwards succeeds. -/
def actB : LeafAction := ⟨2, .ok (some 2), .ok ()⟩

/-- Scenario action C: forwards raises "boom", backwards succeeds. -/
def actC : LeafAction := ⟨3, .error "boom", .ok ()⟩

/-- An action whose forwards fails with "x" (stack-invariant scenario). -/
def actFailX : LeafAction := ⟨9, .error "x", .ok ()⟩

/-- A successful first action for the rollback-abort scenario. -/
def goodOne : LeafAction := ⟨21, .ok (some 1), .ok ()⟩

/-- An action whose forwards fails with "f" and whose backwards fails
with "g" (rollback-abort scenario). -/
def badBoth : LeafAction := ⟨22, .error "f", .error "g"⟩

/-- An action whose forwards returns 5 (tornado probe scenario). -/
def act5 : LeafAction := ⟨50, .ok (some 5), .ok ()⟩

/-- A procedure that yields one action and terminates delivering the
value it was resumed with (echoes the forwards result). -/
def probeProc : Proc :=
  .yield act5 fun r =>
    match r with
    | .ok v => .done v
    | .error _ => .done none

/-- A procedure that yields one failing action, catches the injected
failure and terminates delivering 9 instead. -/
def catchProc : Proc :=
  .yield actC fun r =>
    match r with
    | .ok v => .done v
    | .error _ => .done (some 9)

/-- Forward run of a straight-line chain whose first failure is `bad`:
every action before `bad` succeeds and is pushed, `bad` is pushed and its
failure (uncaught by `seqProc`) becomes the composite failure; actions
after `bad` are never reached. -/
theorem seqProc_forwards_fail (good : List LeafAction) (bad : LeafAction)
    (rest : List LeafAction) (e : Err) (st₀ : List LeafAction)
    (hgood : ∀ a ∈ good, ∃ v, a.fwd = Except.ok v)
    (hbad : bad.fwd = Except.error e) :
    genActionForwards (seqProc (good ++ bad :: rest)) st₀ =
      (Except.error e, bad :: (good.reverse ++ st₀),
        good.map Event.fwdCall ++ [Event.fwdCall bad]) := by
  induction good generalizing st₀ with
  | nil =>
    simp [seqProc, genActionForwards, hbad, prependEvent]
  | cons a good ih =>
    obtain ⟨v, hv⟩ := hgood a (by simp)
    have hrest : ∀ b ∈ good, ∃ v, b.fwd = Except.ok v :=
      fun b hb => hgood b (by simp [hb])
    have ih' := ih (a :: st₀) hrest
    simp [seqProc, genActionForwards, hv, prependEvent, ih']

/-- A rollback sweep over a stack whose entries all have succeeding
`backwards`: every entry is popped and compensated, in stack order. -/
theorem genActionBackwards_all_ok (st : List LeafAction)
    (h : ∀ a ∈ st, a.bwd = Except.ok ()) :
    genActionBackwards st = (Except.ok (), [], st.map Event.bwdCall) := by
  induction st with
  | nil => rfl
  | cons a st ih =>
    have ha := h a (by simp)
    have ih' := ih fun b hb => h b (by simp [hb])
    simp [genActionBackwards, ha, ih']

/-- A rollback sweep that hits its first failing `backwards` at `b`:
the entries before `b` and `b` itself are popped and compensated in stack
order, the failure propagates, and the older entries `post` are left
untouched on the stack. -/
theorem genActionBackwards_first_fail (pre : List LeafAction) (b : LeafAction)
    (post : List LeafAction) (e : Err)
    (hpre : ∀ a ∈ pre, a.bwd = Except.ok ())
    (hb : b.bwd = Except.error e) :
    genActionBackwards (pre ++ b :: post) =
      (Except.error e, post, pre.map Event.bwdCall ++ [Event.bwdCall b]) := by
  induction pre with
  | nil => simp [genActionBackwards, hb]
  | cons a pre ih =>
    have ha := hpre a (by simp)
    have ih' := ih fun c hc => hpre c (by simp [hc])
    simp [genActionBackwards, ha, ih']

/-- During a forward run, the stack grows by exactly the actions whose
`forwards` was invoked (most recent first), and no `backwards` call is
ever emitted. -/
theorem genActionForwards_stack_trace (p : Proc) :
    ∀ st₀ : List LeafAction,
      (genActionForwards p st₀).2.1 =
        ((genActionForwards p st₀).2.2.filterMap Event.fwdAction).reverse ++ st₀ ∧
      ∀ ev ∈ (genActionForwards p st₀).2.2, Event.bwdAction ev = none := by
  induction p with
  | done v => intro st₀; simp [genActionForwards]
  | fail e => intro st₀; simp [genActionForwards]
  | yield a k ih =>
    intro st₀
    cases hfwd : a.fwd with
    | ok v =>
      obtain ⟨ihs, iht⟩ := ih (Except.ok v) (a :: st₀)
      simp only [genActionForwards, hfwd, prependEvent]
      constructor
      · rw [ihs]
        simp [Event.fwdAction]
      · intro ev hev
        rcases List.mem_cons.mp hev with hh | hh
        · subst hh; rfl
        · exact iht ev hh
    | error e =>
      obtain ⟨ihs, iht⟩ := ih (Except.error e) (a :: st₀)
      simp only [genActionForwards, hfwd, prependEvent]
      constructor
      · rw [ihs]
        simp [Event.fwdAction]
      · intro ev hev
        rcases List.mem_cons.mp hev with hh | hh
        · subst hh; rfl
        · exact iht ev hh

/-- During a rollback sweep, the entries removed from the stack are
exactly the ones whose `backwards` was invoked, in pop order, and no
`forwards` call is ever emitted. -/
theorem genActionBackwards_stack_trace (st : List LeafAction) :
    st = (genActionBackwards st).2.2.filterMap Event.bwdAction ++ (genActionBackwards st).2.1 ∧
    ∀ ev ∈ (genActionBackwards st).2.2, Event.fwdAction ev = none := by
  induction st with
  | nil => simp [genActionBackwards]
  | cons a st ih =>
    obtain ⟨ihs, iht⟩ := ih
    cases hbwd : a.bwd with
    | ok u =>
      simp only [genActionBackwards, hbwd]
      constructor
      · simp only [List.filterMap_cons, Event.bwdAction, List.cons_append]
        exact congrArg (a :: ·) ihs
      · intro ev hev
        rcases List.mem_cons.mp hev with hh | hh
        · subst hh; rfl
        · exact iht ev hh
    | error e =>
      simp only [genActionBackwards, hbwd]
      constructor
      · simp [Event.bwdAction]
      · intro ev hev
        rcases List.mem_cons.mp hev with hh | hh
        · subst hh; rfl
        · simp at hh

/-- The synchronous bridge wrapper is behavior-preserving, so mapping it
over a procedure with the bidirectional `_map_generator` reproduces the
procedure. -/
theorem mapGenerator_tornadoWrap_id (p : Proc) : mapGenerator tornadoWrap p = p := by
  induction p with
  | done v => rfl
  | fail e => rfl
  | yield a k ih =>
    exact congrArg (Proc.yield a) (funext ih)

/-- C1 counterexample: in the concrete scenario (A forwards→1, B
forwards→2, C forwards raises "boom", composite yields A, B, C in order),
the claim states that C.backwards is never called. It is false:
`_GeneratorAction.forwards` appends C to `executed` before calling
`C.forwards()`, so the rollback triggered by `execute` pops C first and
calls its `backwards` exactly once. -/
theorem composite_boom_failing_backwards_called :
    (execute compositeAction (gen (.generator (seqProc [actA, actB, actC])))).2.2.count
      (Event.bwdCall actC) ≠ 0 := by
  decide

/-- C1 (amended): executing the composite built from A, B, C raises
"boom"; C.backwards, B.backwards and A.backwards are each called exactly
once, in that order (C's backwards runs first, then B's, then A's), after
the three forwards calls A, B, C. -/
theorem composite_boom_rollback :
    (execute compositeAction (gen (.generator (seqProc [actA, actB, actC])))).1 =
      Except.error "boom" ∧
    (execute compositeAction (gen (.generator (seqProc [actA, actB, actC])))).2.2 =
      [Event.fwdCall actA, Event.fwdCall actB, Event.fwdCall actC,
       Event.bwdCall actC, Event.bwdCall actB, Event.bwdCall actA] ∧
    (execute compositeAction (gen (.generator (seqProc [actA, actB, actC])))).2.2.count
      (Event.bwdCall actA) = 1 ∧
    (execute compositeAction (gen (.generator (seqProc [actA, actB, actC])))).2.2.count
      (Event.bwdCall actB) = 1 ∧
    (execute compositeAction (gen (.generator (seqProc [actA, actB, actC])))).2.2.count
      (Event.bwdCall actC) = 1 := by
  refine ⟨rfl, rfl, by decide, by decide, by decide⟩

/-- C2 counterexample: the claimed invariant says a sub-action is on the
completed-stack only if its `forwards` call returned without failure.
False: after the composite's forwards, the action whose forwards raised
"x" sits on the stack (it is pushed before its forwards is called). -/
theorem completed_stack_contains_failed_action :
    (generatorAction.forwards ⟨seqProc [actFailX], []⟩).2.1.executed = [actFailX] ∧
    actFailX.fwd = Except.error "x" :=
  ⟨rfl, rfl⟩

/-- C2 (amended): at every point of a chain execution (each suspension
point is a recursive call with the then-current generator and stack, so
quantifying over all `p`, `st₀`, `st` covers every intermediate point),
a sub-action is on the completed-stack iff its `forwards()` has been
invoked - it is pushed immediately before the call, whether or not the
call succeeds - and its `backwards()` has not yet been invoked by this
chain's rollback: during forwards the stack grows by exactly the
forwards-invoked actions (most recent first) and no backwards runs;
during rollback the removed entries are exactly the backwards-invoked
ones and no forwards runs. -/
theorem completed_stack_tracks_started_forwards :
    (∀ (p : Proc) (st₀ : List LeafAction),
      (generatorAction.forwards ⟨p, st₀⟩).2.1.executed =
        ((generatorAction.forwards ⟨p, st₀⟩).2.2.filterMap Event.fwdAction).reverse ++ st₀ ∧
      ∀ ev ∈ (generatorAction.forwards ⟨p, st₀⟩).2.2, Event.bwdAction ev = none) ∧
    (∀ (g : Proc) (st : List LeafAction),
      st = (generatorAction.backwards ⟨g, st⟩).2.2.filterMap Event.bwdAction ++
        (generatorAction.backwards ⟨g, st⟩).2.1.executed ∧
      ∀ ev ∈ (generatorAction.backwards ⟨g, st⟩).2.2, Event.fwdAction ev = none) := by
  constructor
  · intro p st₀
    simpa [generatorAction] using genActionForwards_stack_trace p st₀
  · intro g st
    simpa [generatorAction] using genActionBackwards_stack_trace st

/-- C4: for every action whose forwards fails with error `e`, `execute`
calls its backwards exactly once; if backwards succeeds the original
error `e` is re-raised unaltered, and if backwards fails with `e₂` then
`e₂` is raised - exactly one of the two errors propagates. -/
theorem execute_failure_propagation (a : LeafAction) (e : Err)
    (hfwd : a.fwd = Except.error e) :
    (execute a.toAction ()).2.2 = [Event.fwdCall a, Event.bwdCall a] ∧
    (execute a.toAction ()).2.2.count (Event.bwdCall a) = 1 ∧
    (a.bwd = Except.ok () → (execute a.toAction ()).1 = Except.error e) ∧
    ∀ e₂, a.bwd = Except.error e₂ → (execute a.toAction ()).1 = Except.error e₂ := by
  cases hbwd : a.bwd with
  | ok u =>
    refine ⟨?_, ?_, ?_, ?_⟩
    · simp [execute, LeafAction.toAction, hfwd, hbwd]
    · simp [execute, LeafAction.toAction, hfwd, hbwd, List.count_cons]
    · intro _; simp [execute, LeafAction.toAction, hfwd, hbwd]
    · intro e₂ h₂; cases h₂
  | error e₂ =>
    refine ⟨?_, ?_, ?_, ?_⟩
    · simp [execute, LeafAction.toAction, hfwd, hbwd]
    · simp [execute, LeafAction.toAction, hfwd, hbwd, List.count_cons]
    · intro h; cases h
    · intro e₃ h₃
      cases h₃
      simp [execute, LeafAction.toAction, hfwd, hbwd]

/-- C4 witness: the rollback-failure-precedence scenario at the concrete
action whose forwards fails with "f" and whose backwards fails with "g":
`execute` raises "g" and backwards ran exactly once. -/
theorem execute_failure_propagation_witness :
    (execute badBoth.toAction ()).1 = Except.error "g" ∧
    (execute badBoth.toAction ()).2.2 = [Event.fwdCall badBoth, Event.bwdCall badBoth] := by
  have h := execute_failure_propagation badBoth "f" rfl
  exact ⟨h.2.2.2 "g" rfl, h.1⟩

/-- C5: when `forwards` returns normally with `v`, `execute` returns
exactly that outcome - same value, same state, same trace - so no
backwards call is made; instantiated on leaf actions, the trace is
exactly one forwards call and contains no backwards call. -/
theorem execute_success_passthrough :
    (∀ (σ : Type) (A : Action σ) (s : σ) (v : Val) (s₁ : σ) (t₁ : List Event),
      A.forwards s = (Except.ok v, s₁, t₁) → execute A s = (Except.ok v, s₁, t₁)) ∧
    (∀ (a : LeafAction) (v : Val), a.fwd = Except.ok v →
      execute a.toAction () = (Except.ok v, (), [Event.fwdCall a]) ∧
      (execute a.toAction ()).2.2.count (Event.bwdCall a) = 0) := by
  constructor
  · intro σ A s v s₁ t₁ h
    simp [execute, h]
  · intro a v h
    constructor
    · simp [execute, LeafAction.toAction, h]
    · simp [execute, LeafAction.toAction, h, List.count_cons]

/-- C5 witness: at the concrete action A (forwards→1) `execute` returns
1 and the trace holds a single forwards call. -/
theorem execute_success_passthrough_witness :
    execute actA.toAction () = (Except.ok (some 1), (), [Event.fwdCall actA]) :=
  (execute_success_passthrough.2 actA (some 1) rfl).1

/-- C9: round-trip for the empty chain. For each of the three ways a
composing function can produce a composite with zero yields - raising
`Return v` before returning a generator, returning a plain value, or
returning a generator that terminates immediately with value `v`
(`StopIteration` with `v = none`, or a `Return`) - the composite's
forwards returns the declared result with an empty sub-action trace, and
its backwards is a no-op (succeeds, changes nothing, calls nothing). -/
theorem empty_chain_roundtrip (v : Val) :
    execute compositeAction (gen (.raisesReturn v)) = (Except.ok v, gen (.raisesReturn v), []) ∧
    execute compositeAction (gen (.value v)) = (Except.ok v, gen (.value v), []) ∧
    execute compositeAction (gen (.generator (.done v))) =
      (Except.ok v, CompositeState.genAction ⟨Proc.done v, []⟩, []) ∧
    compositeAction.backwards (gen (.raisesReturn v)) = (Except.ok (), gen (.raisesReturn v), []) ∧
    compositeAction.backwards (gen (.value v)) = (Except.ok (), gen (.value v), []) ∧
    compositeAction.backwards (CompositeState.genAction ⟨Proc.done v, []⟩) =
      (Except.ok (), CompositeState.genAction ⟨Proc.done v, []⟩, []) :=
  ⟨rfl, rfl, rfl, rfl, rfl, rfl⟩

/-- C3 counterexample: the claim promises that sub-actions 1..k-1 each
have backwards called exactly once, with no condition on rollback itself
succeeding. False: with N=2 and k=2, if sub-action 2's backwards fails
("g"), the sweep stops immediately and sub-action 1's backwards is never
called (count 0, not 1). -/
theorem rollback_abort_skips_earlier_backwards :
    goodOne.fwd = Except.ok (some 1) ∧
    badBoth.fwd = Except.error "f" ∧
    (execute compositeAction (gen (.generator (seqProc [goodOne, badBoth])))).2.2.count
      (Event.bwdCall goodOne) = 0 := by
  refine ⟨rfl, rfl, by decide⟩

/-- C3 (amended): for a composite of sub-actions yielded in order whose
first forwards failure is `bad` (uncaught by the procedure), provided
each invoked backwards succeeds (otherwise the sweep stops early per the
fail-fast rule): executing the composite raises `bad`'s error; the trace
is the forwards calls 1..k in order, then `bad`'s backwards, then the
backwards of 1..k-1 in order k-1, ..., 1 (each exactly once); sub-actions
after `bad` never have forwards or backwards called. -/
theorem first_failure_rollback_order (good : List LeafAction) (bad : LeafAction)
    (rest : List LeafAction) (e : Err)
    (hgoodf : ∀ a ∈ good, ∃ v, a.fwd = Except.ok v)
    (hbadf : bad.fwd = Except.error e)
    (hgoodb : ∀ a ∈ good, a.bwd = Except.ok ())
    (hbadb : bad.bwd = Except.ok ()) :
    (execute compositeAction (gen (.generator (seqProc (good ++ bad :: rest))))).1 =
      Except.error e ∧
    (execute compositeAction (gen (.generator (seqProc (good ++ bad :: rest))))).2.2 =
      good.map Event.fwdCall ++ [Event.fwdCall bad, Event.bwdCall bad] ++
        good.reverse.map Event.bwdCall ∧
    ∀ a : LeafAction, a ∉ good → a ≠ bad →
      (execute compositeAction (gen (.generator (seqProc (good ++ bad :: rest))))).2.2.count
        (Event.fwdCall a) = 0 ∧
      (execute compositeAction (gen (.generator (seqProc (good ++ bad :: rest))))).2.2.count
        (Event.bwdCall a) = 0 := by
  have hf := seqProc_forwards_fail good bad rest e [] hgoodf hbadf
  have hallb : ∀ a ∈ bad :: (good.reverse ++ ([] : List LeafAction)), a.bwd = Except.ok () := by
    intro a ha
    rcases List.mem_cons.mp ha with rfl | ha
    · exact hbadb
    · rw [List.append_nil] at ha
      exact hgoodb a (List.mem_reverse.mp ha)
  have hb := genActionBackwards_all_ok _ hallb
  have htotal : execute compositeAction (gen (.generator (seqProc (good ++ bad :: rest)))) =
      (Except.error e, .genAction ⟨seqProc (good ++ bad :: rest), []⟩,
        (good.map Event.fwdCall ++ [Event.fwdCall bad]) ++
          (bad :: (good.reverse ++ [])).map Event.bwdCall) := by
    simp only [execute, compositeAction, gen, hf, hb]
  have htrace : (execute compositeAction (gen (.generator (seqProc (good ++ bad :: rest))))).2.2 =
      good.map Event.fwdCall ++ [Event.fwdCall bad, Event.bwdCall bad] ++
        good.reverse.map Event.bwdCall := by
    rw [htotal]
    simp
  refine ⟨by rw [htotal], htrace, ?_⟩
  intro a ha hne
  constructor
  · rw [htrace, List.count_eq_zero]
    intro hmem
    simp [ha, hne, hne.symm] at hmem
  · rw [htrace, List.count_eq_zero]
    intro hmem
    simp [ha, hne, hne.symm] at hmem

/-- C3 witness: the amended theorem at good = [A, B], bad = C,
rest = [goodOne]: executing the composite raises "boom" with trace
forwards A, B, C then backwards C, B, A, and goodOne is never called. -/
theorem first_failure_rollback_order_witness :
    (execute compositeAction (gen (.generator (seqProc ([actA, actB] ++ actC :: [goodOne]))))).1 =
      Except.error "boom" ∧
    (execute compositeAction (gen (.generator (seqProc ([actA, actB] ++ actC :: [goodOne]))))).2.2 =
      [Event.fwdCall actA, Event.fwdCall actB, Event.fwdCall actC,
       Event.bwdCall actC, Event.bwdCall actB, Event.bwdCall actA] := by
  have h := first_failure_rollback_order [actA, actB] actC [goodOne] "boom"
    (by
      intro a ha
      simp only [List.mem_cons, List.not_mem_nil, or_false] at ha
      rcases ha with rfl | rfl
      · exact ⟨some 1, rfl⟩
      · exact ⟨some 2, rfl⟩)
    rfl
    (by
      intro a ha
      simp only [List.mem_cons, List.not_mem_nil, or_false] at ha
      rcases ha with rfl | rfl <;> rfl)
    rfl
  exact ⟨h.1, h.2.1.trans (by rfl)⟩

/-- C6: when a yielded sub-action's forwards fails, the failure is
injected into the composing procedure at the suspension point - the run
continues exactly as the resumed procedure `k (error e)` decides, with
the failed sub-action already on the rollback stack. If the procedure
does not catch it (resuming terminates with that error), it becomes the
composite's failure; if the procedure catches it and continues as `p`,
the composite continues with `p` from the stack `a :: st`, so later
steps still enter the rollback stack (above `a`) and are rolled back if
a later step fails. -/
theorem yield_failure_injection (a : LeafAction) (k : Except Err Val → Proc)
    (st : List LeafAction) (e : Err) (hfwd : a.fwd = Except.error e) :
    genActionForwards (.yield a k) st =
      prependEvent (Event.fwdCall a) (genActionForwards (k (Except.error e)) (a :: st)) ∧
    (k (Except.error e) = Proc.fail e → (genActionForwards (.yield a k) st).1 = Except.error e) ∧
    ∀ p : Proc, genActionForwards (.yield a fun _ => p) st =
      prependEvent (Event.fwdCall a) (genActionForwards p (a :: st)) := by
  refine ⟨?_, ?_, ?_⟩
  · simp [genActionForwards, hfwd]
  · intro hk
    simp [genActionForwards, hfwd, hk, prependEvent]
  · intro p
    simp [genActionForwards, hfwd]

/-- C6 witness: the failing action C with a catching procedure that
continues by terminating with 9: the run continues past the failure with
C on the stack. -/
theorem yield_failure_injection_witness :
    genActionForwards (.yield actC fun _ => Proc.done (some 9)) [] =
      prependEvent (Event.fwdCall actC) (genActionForwards (Proc.done (some 9)) [actC]) :=
  (yield_failure_injection actC (fun _ => Proc.done (some 9)) [] "boom" rfl).2.2
    (Proc.done (some 9))

/-- C7: the rollback sweep pops the completed-stack one entry at a time,
calling each popped entry's backwards in stack order (strict reverse of
forward completion order, the stack holding the most recently completed
entry at its head); if a popped entry's backwards fails, the sweep stops
immediately, that failure propagates, and no backwards is attempted on
any remaining older entry; if every backwards succeeds the whole stack
is swept. -/
theorem backwards_fail_fast_sweep :
    (∀ (pre : List LeafAction) (b : LeafAction) (post : List LeafAction) (e : Err),
      (∀ a ∈ pre, a.bwd = Except.ok ()) → b.bwd = Except.error e →
      genActionBackwards (pre ++ b :: post) =
        (Except.error e, post, pre.map Event.bwdCall ++ [Event.bwdCall b])) ∧
    ∀ st : List LeafAction, (∀ a ∈ st, a.bwd = Except.ok ()) →
      genActionBackwards st = (Except.ok (), [], st.map Event.bwdCall) :=
  ⟨genActionBackwards_first_fail, genActionBackwards_all_ok⟩

/-- C7 witness: sweeping the stack [A, badBoth, B] calls A's backwards,
then badBoth's backwards which fails with "g"; the sweep stops and B's
backwards is never attempted. -/
theorem backwards_fail_fast_sweep_witness :
    genActionBackwards [actA, badBoth, actB] =
      (Except.error "g", [actB], [Event.bwdCall actA, Event.bwdCall badBoth]) := by
  have h := backwards_fail_fast_sweep.1 [actA] badBoth [actB] "g"
    (by
      intro x hx
      simp only [List.mem_singleton] at hx
      subst hx
      rfl)
    rfl
  exact h

/-- C8 counterexample: the two bridged-composition variants are not
behaviorally equivalent. For the procedure that echoes its first yield's
result, the tornado.py composite returns None while the
tornado/generator.py composite returns 5; for the procedure that
catches its yield's failure, the tornado.py composite fails with "boom"
while the tornado/generator.py composite returns 9. -/
theorem tornado_gen_variants_counterexample :
    (compositeAction.forwards (tornadoOldGen probeProc)).1 ≠
      (compositeAction.forwards (tornadoNewGen probeProc)).1 ∧
    (compositeAction.forwards (tornadoOldGen catchProc)).1 ≠
      (compositeAction.forwards (tornadoNewGen catchProc)).1 ∧
    (compositeAction.forwards (tornadoOldGen probeProc)).1 = Except.ok none ∧
    (compositeAction.forwards (tornadoNewGen probeProc)).1 = Except.ok (some 5) ∧
    (compositeAction.forwards (tornadoOldGen catchProc)).1 = Except.error "boom" ∧
    (compositeAction.forwards (tornadoNewGen catchProc)).1 = Except.ok (some 9) := by
  exact ⟨by decide, by decide, rfl, rfl, rfl, rfl⟩

/-- C8 (amended): the two variants both wrap every yielded sub-action
with the bridge, but they are not behaviorally equivalent. The
tornado/generator.py variant, built on the bidirectional
`_map_generator`, resumes the procedure with each sub-action's forwards
result and injects its failure at the yield point: for synchronous
sub-actions it coincides exactly with the plain composite. The
tornado.py variant wraps with a one-directional generator comprehension:
on a successful sub-action it resumes the procedure with None instead of
the result, and on a failing sub-action the injected failure propagates
out of the comprehension without ever reaching the procedure, so the
composite fails even if the procedure would have caught it. -/
theorem tornado_variant_semantics :
    (∀ (p : Proc) (st : List LeafAction),
      genActionForwards (mapGenerator tornadoWrap p) st = genActionForwards p st) ∧
    (∀ (a : LeafAction) (k : Except Err Val → Proc) (st : List LeafAction) (v : Val),
      a.fwd = Except.ok v →
      genActionForwards (genComprehension tornadoWrap (.yield a k)) st =
        prependEvent (Event.fwdCall a)
          (genActionForwards (genComprehension tornadoWrap (k (Except.ok none))) (a :: st))) ∧
    ∀ (a : LeafAction) (k : Except Err Val → Proc) (st : List LeafAction) (e : Err),
      a.fwd = Except.error e →
      genActionForwards (genComprehension tornadoWrap (.yield a k)) st =
        (Except.error e, a :: st, [Event.fwdCall a]) := by
  refine ⟨?_, ?_, ?_⟩
  · intro p st
    rw [mapGenerator_tornadoWrap_id]
  · intro a k st v hfwd
    simp [genComprehension, tornadoWrap, genActionForwards, hfwd]
  · intro a k st e hfwd
    simp [genComprehension, tornadoWrap, genActionForwards, hfwd, prependEvent]

/-- C8 witness: under the tornado.py comprehension, the failure of C is
not delivered to the catching procedure; it aborts the composite. -/
theorem tornado_variant_semantics_witness :
    genActionForwards (genComprehension tornadoWrap (.yield actC fun _ => Proc.done none)) [] =
      (Except.error "boom", [actC], [Event.fwdCall actC]) :=
  tornado_variant_semantics.2.2 actC (fun _ => Proc.done none) [] "boom" rfl

/-- C10: when a rollback sweep is aborted by an entry whose backwards
fails, that entry and every already-compensated entry have been removed
from the completed-stack while all older entries remain; a subsequent
backwards call on the same composite resumes compensation with exactly
those older entries; and after a fully successful sweep the stack is
empty, so a further backwards call does nothing. -/
theorem rollback_frame_resume (g : Proc) (pre : List LeafAction) (b : LeafAction)
    (post : List LeafAction) (e : Err)
    (hpre : ∀ a ∈ pre, a.bwd = Except.ok ()) (hb : b.bwd = Except.error e) :
    (generatorAction.backwards ⟨g, pre ++ b :: post⟩).1 = Except.error e ∧
    (generatorAction.backwards ⟨g, pre ++ b :: post⟩).2.1.executed = post ∧
    (generatorAction.backwards ⟨g, pre ++ b :: post⟩).2.2 =
      pre.map Event.bwdCall ++ [Event.bwdCall b] ∧
    ((∀ a ∈ post, a.bwd = Except.ok ()) →
      generatorAction.backwards ((generatorAction.backwards ⟨g, pre ++ b :: post⟩).2.1) =
        (Except.ok (), ⟨g, []⟩, post.map Event.bwdCall)) ∧
    generatorAction.backwards ⟨g, []⟩ = (Except.ok (), ⟨g, []⟩, []) := by
  have h1 := genActionBackwards_first_fail pre b post e hpre hb
  refine ⟨?_, ?_, ?_, ?_, ?_⟩
  · simp [generatorAction, h1]
  · simp [generatorAction, h1]
  · simp [generatorAction, h1]
  · intro hpost
    have h2 := genActionBackwards_all_ok post hpost
    simp [generatorAction, h1, h2]
  · rfl

/-- C10 witness: stack [A, badBoth, B]: the aborted sweep leaves [B];
the next backwards call compensates exactly B and empties the stack. -/
theorem rollback_frame_resume_witness :
    (generatorAction.backwards ⟨Proc.done none, [actA] ++ badBoth :: [actB]⟩).2.1.executed =
      [actB] ∧
    generatorAction.backwards
        ((generatorAction.backwards ⟨Proc.done none, [actA] ++ badBoth :: [actB]⟩).2.1) =
      (Except.ok (), ⟨Proc.done none, []⟩, [Event.bwdCall actB]) := by
  have h := rollback_frame_resume (Proc.done none) [actA] badBoth [actB] "g"
    (by
      intro x hx
      simp only [List.mem_singleton] at hx
      subst hx
      rfl)
    rfl
  refine ⟨h.2.1, ?_⟩
  have h4 := h.2.2.2.1 (by
    intro x hx
    simp only [List.mem_singleton] at hx
    subst hx
    rfl)
  exact h4

end Reversible
